import Mathlib

/-!
A shallow embedding of the github-backend record store: the collection
store (src/services/DatabaseService.js) and the transaction coordinator
(src/services/TransactionService.js).

Records are JavaScript objects, modelled as association lists from field
names to string values with first-match lookup; object spread is
modelled by list construction where entries written earlier in the Lean
list take priority (so the explicitly assigned fields of a spread are
listed before the spread-in ones they override).

The git repository used as the snapshot log is modelled as the list of
committed store states, oldest first; a commit hash is the index of its
entry, and the head hash is the last index.  A revert truncates the log
to the addressed entry and restores the working store from it, exactly
as git reset --hard does.  A capture appends the current working store
unless it equals the head entry, in which case git commit fails with
nothing to commit, which commitChanges deliberately ignores.

Clock reads (Date.now, toISOString) and the random component of
generated identifiers are explicit parameters.  The possibility that a
git command fails for an environmental reason is an explicit
Option String parameter: some message means the command failed with
that message, none means git behaved normally.
-/

namespace GB

/-- JavaScript objects as association lists; the first entry for a key wins. -/
abbrev Obj := List (String × String)

/-- First-match lookup in an association list. -/
def lookupA {α : Type} : List (String × α) → String → Option α
  | [], _ => none
  | (k, v) :: t, q => if k = q then some v else lookupA t q

/-- Replace the first entry for a key, or append a new one: JavaScript Map.set,
and also the semantics of writing one collection file among the data files. -/
def alistSet {α : Type} : List (String × α) → String → α → List (String × α)
  | [], k, v => [(k, v)]
  | (k1, v1) :: t, k, v => if k1 = k then (k, v) :: t else (k1, v1) :: alistSet t k v

/-- Remove the entries for a key: JavaScript Map.delete. -/
def alistRemove {α : Type} : List (String × α) → String → List (String × α)
  | [], _ => []
  | (k1, v1) :: t, k => if k1 = k then alistRemove t k else (k1, v1) :: alistRemove t k

/-- First-some choice on options, used to state shallow-merge lookups. -/
def optOr {α : Type} : Option α → Option α → Option α
  | some v, _ => some v
  | none, b => b

/-- JavaScript v or-else d for string-or-absent values: null, undefined and
the empty string are all falsy, so each of them selects the fallback. -/
def jsOrElse (v : Option String) (d : String) : String :=
  match v with
  | some s => if s = "" then d else s
  | none => d

/-- Per-collection metadata entry, as written by updateMetadata. -/
structure MetaColl where
  recordCount : Nat
  lastModified : String
deriving Repr, DecidableEq

/-- The metadata.json contents. -/
structure Metadata where
  lastModified : String
  collections : List (String × MetaColl)
  totalRecords : Nat
deriving Repr, DecidableEq

/-- The working tree of the database directory: the data files (one record
list per collection) and the metadata file. -/
structure Store where
  data : List (String × List Obj)
  meta : Metadata
deriving Repr, DecidableEq

/-- The whole DatabaseService state: the working store plus the git log,
oldest commit first, each commit holding the store it captured and the
commit message. -/
structure DB where
  store : Store
  log : List (Store × String)
deriving Repr, DecidableEq

deriving instance DecidableEq for Except

/-- The store recorded at the head commit of the git log, if any. -/
def headStore (db : DB) : Option Store :=
  (db.log.getLast?).map Prod.fst

/-- DatabaseService.getCollection: read the collection file, an absent file
yields the empty list. -/
def DB.getCollection (db : DB) (c : String) : List Obj :=
  match lookupA db.store.data c with
  | some rs => rs
  | none => []

/-- DatabaseService.getRecord: first record whose id field equals the query. -/
def DB.getRecord (db : DB) (c : String) (id : String) : Option Obj :=
  (db.getCollection c).find? (fun r => lookupA r "id" == some id)

/-- DatabaseService.updateMetadata: refresh the global and per-collection
last-modified stamps and the record count, then recompute the total. -/
def updateMetadata (m : Metadata) (c : String) (count : Nat) (now : String) : Metadata :=
  let colls := alistSet m.collections c { recordCount := count, lastModified := now }
  { lastModified := now,
    collections := colls,
    totalRecords := (colls.map (fun p => p.2.recordCount)).sum }

/-- DatabaseService.saveCollection: write the collection file and update the
metadata file; the git log is untouched. -/
def DB.saveCollection (db : DB) (c : String) (rs : List Obj) (now : String) : DB :=
  { db with store := { data := alistSet db.store.data c rs,
                       meta := updateMetadata db.store.meta c rs.length now } }

/-- DatabaseService.commitChanges: git add and git commit.  When git fails
for an environmental reason (gitFail is some message) or because the
working store already equals the head commit (nothing to commit), the
error is caught and not rethrown, so the method always returns normally;
a successful commit appends the working store to the log. -/
def DB.commitChanges (db : DB) (msg : String) (gitFail : Option String) : DB :=
  match gitFail with
  | some _ => db
  | none =>
    if headStore db = some db.store then db
    else { db with log := db.log ++ [(db.store, msg)] }

/-- DatabaseService.generateId: current milliseconds, a dash, and a random
base-36 fragment. -/
def generateId (nowMs : Nat) (rand : String) : String :=
  toString nowMs ++ "-" ++ rand

/-- DatabaseService.createRecord: resolve the id (a falsy data.id selects a
generated one), build the record with id, createdAt and updatedAt
overriding the supplied fields, append it, save, capture a snapshot and
return the new record. -/
def DB.createRecord (db : DB) (c : String) (data : Obj) (nowMs : Nat) (rand : String)
    (now : String) (gitFail : Option String) : DB × Obj :=
  let records := db.getCollection c
  let id := jsOrElse (lookupA data "id") (generateId nowMs rand)
  let newRecord : Obj := ("id", id) :: ("createdAt", now) :: ("updatedAt", now) :: data
  let records2 := records ++ [newRecord]
  let db1 := db.saveCollection c records2 now
  let db2 := db1.commitChanges ("Create record " ++ id ++ " in " ++ c) gitFail
  (db2, newRecord)

/-- DatabaseService.updateRecord: find the record by id, fail with not found
when absent; otherwise overwrite it in place with the spread of the
supplied fields over the old record, with id and updatedAt reasserted on
top, save and capture a snapshot. -/
def DB.updateRecord (db : DB) (c : String) (id : String) (data : Obj)
    (now : String) (gitFail : Option String) : Except String (DB × Obj) :=
  let records := db.getCollection c
  match records.findIdx? (fun r => lookupA r "id" == some id) with
  | none => .error ("Record with ID " ++ id ++ " not found in collection " ++ c)
  | some i =>
    let old := records.getD i []
    let merged : Obj := ("id", id) :: ("updatedAt", now) :: data ++ old
    let records2 := records.set i merged
    let db1 := db.saveCollection c records2 now
    let db2 := db1.commitChanges ("Update record " ++ id ++ " in " ++ c) gitFail
    .ok (db2, merged)

/-- DatabaseService.deleteRecord: find the record by id, fail with not found
when absent; otherwise splice it out, save, capture a snapshot and return
the removed record. -/
def DB.deleteRecord (db : DB) (c : String) (id : String)
    (now : String) (gitFail : Option String) : Except String (DB × Obj) :=
  let records := db.getCollection c
  match records.findIdx? (fun r => lookupA r "id" == some id) with
  | none => .error ("Record with ID " ++ id ++ " not found in collection " ++ c)
  | some i =>
    let deleted := records.getD i []
    let records2 := records.eraseIdx i
    let db1 := db.saveCollection c records2 now
    let db2 := db1.commitChanges ("Delete record " ++ id ++ " from " ++ c) gitFail
    .ok (db2, deleted)

/-- DatabaseService.revertToCommit: git reset --hard.  An environmental git
failure or an unknown hash is rethrown; on success the working store is
restored from the addressed commit and the log is truncated there. -/
def DB.revertToCommit (db : DB) (h : Nat) (gitFail : Option String) : Except String DB :=
  match gitFail with
  | some e => .error e
  | none =>
    if hlt : h < db.log.length then
      .ok { store := (db.log.get ⟨h, hlt⟩).1, log := db.log.take (h + 1) }
    else .error "unknown commit"

/-- TransactionService.getCurrentCommitHash: git rev-parse HEAD, failing when
the log has no commit. -/
def getCurrentCommitHash (db : DB) : Except String Nat :=
  if db.log.length = 0 then .error "no current commit" else .ok (db.log.length - 1)

/-- Transaction status values. -/
inductive TxStatus
  | active
  | committed
  | rolled_back
deriving Repr, DecidableEq

/-- The operation kinds dispatched by executeInTransaction, together with
their arguments; an unrecognized kind carries only its name. -/
inductive Op
  | create (c : String) (data : Obj)
  | update (c : String) (id : String) (data : Obj)
  | delete (c : String) (id : String)
  | other (name : String)
deriving Repr, DecidableEq

/-- One entry of a transaction operation log. -/
structure OpRecord where
  operation : Op
  timestamp : Nat
  status : String
  result : Option Obj
  error : Option String
deriving Repr, DecidableEq

/-- A transaction object. -/
structure Txn where
  id : String
  startTime : Nat
  checkpointHash : Nat
  operations : List OpRecord
  status : TxStatus
  endTime : Option Nat
  finalCommitHash : Option Nat
deriving Repr, DecidableEq

/-- The TransactionService state: the map of in-flight transactions. -/
structure TS where
  activeTransactions : List (String × Txn)
deriving Repr, DecidableEq

/-- TransactionService.beginTransaction: resolve the id (a falsy explicit id
selects a generated one), fail when it is already registered, read the
current head hash as the checkpoint without writing anything, and register
the new active transaction.  The DatabaseService state is only read, never
changed, which is why this function does not return a DB. -/
def TS.beginTransaction (ts : TS) (db : DB) (transactionId : Option String)
    (genTx : String) (t0 : Nat) : Except String (TS × Txn) :=
  let id := jsOrElse transactionId genTx
  if (lookupA ts.activeTransactions id).isSome then
    .error ("Transaction " ++ id ++ " is already active")
  else
    match getCurrentCommitHash db with
    | .error e => .error e
    | .ok h =>
      let tx : Txn := { id := id, startTime := t0, checkpointHash := h,
                        operations := [], status := .active,
                        endTime := none, finalCommitHash := none }
      .ok ({ activeTransactions := alistSet ts.activeTransactions id tx }, tx)

/-- The dispatch switch inside executeInTransaction: create, update and
delete go to the DatabaseService; any other kind throws Unsupported
operation inside the guarded block. -/
def dispatchOp (db : DB) (op : Op) (nowMs : Nat) (rand : String) (now : String)
    (gitFail : Option String) : Except String (DB × Obj) :=
  match op with
  | .create c data => .ok (db.createRecord c data nowMs rand now gitFail)
  | .update c id data => db.updateRecord c id data now gitFail
  | .delete c id => db.deleteRecord c id now gitFail
  | .other name => .error ("Unsupported operation: " ++ name)

/-- TransactionService.executeInTransaction: an unknown or non-active
transaction throws before anything is recorded; otherwise the operation is
dispatched and an operation record is appended to the transaction whatever
the outcome: completed with the result on success, failed with the error
message on failure, in which case the error is rethrown (the third
component carries the thrown error or the returned value). -/
def TS.executeInTransaction (ts : TS) (db : DB) (txId : String) (op : Op)
    (nowMs : Nat) (rand : String) (now : String) (gitFail : Option String)
    (opTime : Nat) : TS × DB × Except String Obj :=
  match lookupA ts.activeTransactions txId with
  | none => (ts, db, .error ("Transaction " ++ txId ++ " not found or not active"))
  | some tx =>
    if tx.status ≠ TxStatus.active then
      (ts, db, .error ("Transaction " ++ txId ++ " is not active"))
    else
      match dispatchOp db op nowMs rand now gitFail with
      | .ok (db2, result) =>
        let entry : OpRecord := { operation := op, timestamp := opTime,
                                  status := "completed", result := some result,
                                  error := none }
        let tx2 := { tx with operations := tx.operations ++ [entry] }
        ({ activeTransactions := alistSet ts.activeTransactions txId tx2 }, db2, .ok result)
      | .error e =>
        let entry : OpRecord := { operation := op, timestamp := opTime,
                                  status := "failed", result := none,
                                  error := some e }
        let tx2 := { tx with operations := tx.operations ++ [entry] }
        ({ activeTransactions := alistSet ts.activeTransactions txId tx2 }, db, .error e)

/-- TransactionService.rollbackTransaction: an unknown or non-active
transaction throws; otherwise the store is reverted to the checkpoint
commit (a revert failure is rethrown with the transaction left registered
and untouched), the transaction is marked rolled back, stamped, removed
from the active set and returned. -/
def TS.rollbackTransaction (ts : TS) (db : DB) (txId : String) (endT : Nat)
    (gitFail : Option String) : TS × Except String (DB × Txn) :=
  match lookupA ts.activeTransactions txId with
  | none => (ts, .error ("Transaction " ++ txId ++ " not found"))
  | some tx =>
    if tx.status ≠ TxStatus.active then
      (ts, .error ("Transaction " ++ txId ++ " is not active"))
    else
      match db.revertToCommit tx.checkpointHash gitFail with
      | .error e => (ts, .error e)
      | .ok db2 =>
        let tx2 := { tx with status := .rolled_back, endTime := some endT }
        ({ activeTransactions := alistRemove ts.activeTransactions txId }, .ok (db2, tx2))

/-- TransactionService.commitTransaction: an unknown or non-active
transaction throws; otherwise the transaction is marked committed and
stamped with the head hash (a failing head read rethrows after the status
was already mutated, leaving the zombie registered), one closing capture
is issued through commitChanges, and the transaction is deregistered and
returned. -/
def TS.commitTransaction (ts : TS) (db : DB) (txId : String) (endT : Nat)
    (gitFail : Option String) : TS × Except String (DB × Txn) :=
  match lookupA ts.activeTransactions txId with
  | none => (ts, .error ("Transaction " ++ txId ++ " not found"))
  | some tx =>
    if tx.status ≠ TxStatus.active then
      (ts, .error ("Transaction " ++ txId ++ " is not active"))
    else
      match getCurrentCommitHash db with
      | .error e =>
        let tx2 := { tx with status := .committed, endTime := some endT }
        ({ activeTransactions := alistSet ts.activeTransactions txId tx2 }, .error e)
      | .ok h =>
        let tx2 := { tx with status := .committed, endTime := some endT, finalCommitHash := some h }
        let db2 := db.commitChanges
          ("Transaction " ++ txId ++ " committed - " ++ toString tx.operations.length
            ++ " operations") gitFail
        ({ activeTransactions := alistRemove ts.activeTransactions txId }, .ok (db2, tx2))

/-- One outcome entry returned by abortAllTransactions or
cleanupStaleTransactions. -/
structure Outcome where
  id : String
  status : String
  result : Option Txn
  error : Option String
deriving Repr, DecidableEq

/-- The shared shape of the loops in abortAllTransactions and
cleanupStaleTransactions: roll each listed transaction back in turn,
catching every failure and recording one outcome per attempt, tagged with
the given success and failure status strings. -/
def rollbackLoop (okS errS : String) : TS → DB → List String → Nat →
    (String → Option String) → TS × DB × List Outcome
  | ts, db, [], _, _ => (ts, db, [])
  | ts, db, id :: rest, endT, gitFail =>
    match ts.rollbackTransaction db id endT (gitFail id) with
    | (ts2, .ok (db2, tx2)) =>
      let r := rollbackLoop okS errS ts2 db2 rest endT gitFail
      (r.1, r.2.1, { id := id, status := okS, result := some tx2, error := none } :: r.2.2)
    | (ts2, .error e) =>
      let r := rollbackLoop okS errS ts2 db rest endT gitFail
      (r.1, r.2.1, { id := id, status := errS, result := none, error := some e } :: r.2.2)

/-- TransactionService.abortAllTransactions: snapshot the registered ids,
roll each back, never rethrow, return the outcomes. -/
def TS.abortAllTransactions (ts : TS) (db : DB) (endT : Nat)
    (gitFail : String → Option String) : TS × DB × List Outcome :=
  rollbackLoop "rolled_back" "error" ts db (ts.activeTransactions.map Prod.fst) endT gitFail

/-- The staleness test of cleanupStaleTransactions: the age in minutes,
(now - startTime) / 60000, exceeds the threshold; stated without the
division, which is exact over the rationals. -/
def isStale (nowT : Nat) (maxAgeMinutes : Nat) (tx : Txn) : Bool :=
  decide (maxAgeMinutes * 60000 < nowT - tx.startTime)

/-- TransactionService.cleanupStaleTransactions: collect the ids of the
registered transactions older than the threshold, then roll each back,
never rethrow, return the outcomes. -/
def TS.cleanupStaleTransactions (ts : TS) (db : DB) (nowT : Nat) (maxAgeMinutes : Nat)
    (endT : Nat) (gitFail : String → Option String) : TS × DB × List Outcome :=
  let staleIds := (ts.activeTransactions.filter
      (fun p => isStale nowT maxAgeMinutes p.2)).map Prod.fst
  rollbackLoop "auto_rolled_back" "cleanup_error" ts db staleIds endT gitFail

/-- One step of an arbitrary workload driven through the coordinator: which
transaction issues it, the operation, and the clock, randomness and git
environment of that instant. -/
structure Step where
  txId : String
  op : Op
  nowMs : Nat
  rand : String
  now : String
  gitFail : Option String
  opTime : Nat
deriving Repr

/-- Apply one workload step through executeInTransaction, keeping the
coordinator and store states and discarding the per-call outcome. -/
def applyStep (s : TS × DB) (m : Step) : TS × DB :=
  let r := s.1.executeInTransaction s.2 m.txId m.op m.nowMs m.rand m.now m.gitFail m.opTime
  (r.1, r.2.1)

/-- Apply a workload left to right. -/
def applySteps (s : TS × DB) (ms : List Step) : TS × DB :=
  ms.foldl applyStep s

/-- No two records of the list share an id field value. -/
def recordIdsUnique (rs : List Obj) : Prop :=
  (rs.map (fun r => lookupA r "id")).Nodup

instance (rs : List Obj) : Decidable (recordIdsUnique rs) :=
  inferInstanceAs (Decidable ((rs.map (fun r => lookupA r "id")).Nodup))

/-- A metadata value for the concrete example states. -/
def metaEx : Metadata :=
  { lastModified := "t0", collections := [], totalRecords := 0 }

/-- An empty store for the concrete example states. -/
def storeEx : Store :=
  { data := [], meta := metaEx }

/-- A database with a clean working tree over one initial commit. -/
def dbEx : DB :=
  { store := storeEx, log := [(storeEx, "Initial database setup")] }

/-- A store holding one users record with id a, for the duplicate-id
examples. -/
def storeDup : Store :=
  { data := [("users", [[("id", "a"), ("x", "1")]])], meta := metaEx }

/-- A database whose users collection already holds a record with id a,
committed and clean. -/
def dbDup : DB :=
  { store := storeDup, log := [(storeDup, "Initial database setup")] }

/-- The record stored by the concrete caller-supplied-createdAt update used
in the examples. -/
def rowDupUpd : Obj :=
  [("id", "a"), ("updatedAt", "t2"), ("createdAt", "t9"), ("id", "a"), ("x", "1")]

/-- The store after that concrete update. -/
def storeDupUpd : Store where
  data := [("users", [rowDupUpd])]
  meta := { lastModified := "t2",
            collections := [("users", { recordCount := 1, lastModified := "t2" })],
            totalRecords := 1 }

/-- The database after that concrete update. -/
def dbDupUpd : DB where
  store := storeDupUpd
  log := [(storeDup, "Initial database setup"), (storeDupUpd, "Update record a in users")]

/-! Helper lemmas about the association-list primitives. -/

theorem lookupA_append {α : Type} (a b : List (String × α)) (q : String) :
    lookupA (a ++ b) q = optOr (lookupA a q) (lookupA b q) := by
  induction a with
  | nil => simp [lookupA, optOr]
  | cons h t ih =>
    obtain ⟨k, v⟩ := h
    by_cases hk : k = q <;> simp [lookupA, hk, ih, optOr]

theorem lookupA_alistSet_self {α : Type} (l : List (String × α)) (k : String) (v : α) :
    lookupA (alistSet l k v) k = some v := by
  induction l with
  | nil => simp [alistSet, lookupA]
  | cons h t ih =>
    obtain ⟨k1, v1⟩ := h
    by_cases hk : k1 = k <;> simp [alistSet, hk, lookupA, ih]

theorem lookupA_alistSet_ne {α : Type} (l : List (String × α)) (k q : String) (v : α)
    (h : q ≠ k) : lookupA (alistSet l k v) q = lookupA l q := by
  have h2 : ¬ k = q := fun hh => h (hh.symm)
  induction l with
  | nil => simp [alistSet, lookupA, h2]
  | cons hd t ih =>
    obtain ⟨k1, v1⟩ := hd
    by_cases hk : k1 = k
    · subst hk
      simp [alistSet, lookupA, h2]
    · simp [alistSet, hk, lookupA, ih]

theorem lookupA_alistRemove_ne {α : Type} (l : List (String × α)) (k q : String)
    (h : q ≠ k) : lookupA (alistRemove l k) q = lookupA l q := by
  have h2 : ¬ k = q := fun hh => h (hh.symm)
  induction l with
  | nil => simp [alistRemove]
  | cons hd t ih =>
    obtain ⟨k1, v1⟩ := hd
    by_cases hk : k1 = k
    · subst hk
      simp [alistRemove, lookupA, h2, ih]
    · simp [alistRemove, hk, lookupA, ih]

/-! Helper lemmas about the store primitives. -/

theorem commitChanges_store (db : DB) (m : String) (g : Option String) :
    (db.commitChanges m g).store = db.store := by
  cases g with
  | some e => rfl
  | none =>
    by_cases h : headStore db = some db.store <;> simp [DB.commitChanges, h]

theorem commitChanges_log (db : DB) (m : String) (g : Option String) :
    ∃ t, (db.commitChanges m g).log = db.log ++ t := by
  cases g with
  | some e => exact ⟨[], by simp [DB.commitChanges]⟩
  | none =>
    by_cases h : headStore db = some db.store
    · exact ⟨[], by simp [DB.commitChanges, h]⟩
    · exact ⟨[(db.store, m)], by simp [DB.commitChanges, h]⟩

theorem saveCollection_log (db : DB) (c : String) (rs : List Obj) (now : String) :
    (db.saveCollection c rs now).log = db.log := rfl

theorem getCollection_saveCollection_self (db : DB) (c : String) (rs : List Obj) (now : String) :
    (db.saveCollection c rs now).getCollection c = rs := by
  simp [DB.saveCollection, DB.getCollection, lookupA_alistSet_self]

theorem getCollection_commitChanges (db : DB) (m : String) (g : Option String) (c : String) :
    (db.commitChanges m g).getCollection c = db.getCollection c := by
  unfold DB.getCollection
  rw [commitChanges_store]

theorem createRecord_snd (db : DB) (c : String) (data : Obj) (nowMs : Nat) (rand : String)
    (now : String) (g : Option String) :
    (db.createRecord c data nowMs rand now g).2 =
      ("id", jsOrElse (lookupA data "id") (generateId nowMs rand)) ::
        ("createdAt", now) :: ("updatedAt", now) :: data := rfl

theorem createRecord_getCollection (db : DB) (c : String) (data : Obj) (nowMs : Nat)
    (rand : String) (now : String) (g : Option String) :
    (db.createRecord c data nowMs rand now g).1.getCollection c =
      db.getCollection c ++ [(db.createRecord c data nowMs rand now g).2] := by
  unfold DB.createRecord
  simp [getCollection_commitChanges, getCollection_saveCollection_self]

theorem createRecord_log (db : DB) (c : String) (data : Obj) (nowMs : Nat) (rand : String)
    (now : String) (g : Option String) :
    ∃ t, (db.createRecord c data nowMs rand now g).1.log = db.log ++ t := by
  unfold DB.createRecord
  obtain ⟨t, ht⟩ := commitChanges_log
    (db.saveCollection c
      (db.getCollection c ++
        [("id", jsOrElse (lookupA data "id") (generateId nowMs rand)) ::
          ("createdAt", now) :: ("updatedAt", now) :: data]) now)
    ("Create record " ++ jsOrElse (lookupA data "id") (generateId nowMs rand) ++ " in " ++ c) g
  exact ⟨t, by simpa [saveCollection_log] using ht⟩

theorem updateRecord_none (db : DB) (c id : String) (data : Obj) (now : String)
    (g : Option String)
    (h : (db.getCollection c).findIdx? (fun r => lookupA r "id" == some id) = none) :
    db.updateRecord c id data now g =
      .error ("Record with ID " ++ id ++ " not found in collection " ++ c) := by
  unfold DB.updateRecord
  dsimp only
  rw [h]

theorem updateRecord_some (db : DB) (c id : String) (data : Obj) (now : String)
    (g : Option String) (i : Nat)
    (h : (db.getCollection c).findIdx? (fun r => lookupA r "id" == some id) = some i) :
    db.updateRecord c id data now g =
      .ok ((db.saveCollection c
              ((db.getCollection c).set i
                (("id", id) :: ("updatedAt", now) :: data ++ (db.getCollection c).getD i []))
              now).commitChanges ("Update record " ++ id ++ " in " ++ c) g,
           ("id", id) :: ("updatedAt", now) :: data ++ (db.getCollection c).getD i []) := by
  unfold DB.updateRecord
  dsimp only
  rw [h]

theorem deleteRecord_none (db : DB) (c id : String) (now : String) (g : Option String)
    (h : (db.getCollection c).findIdx? (fun r => lookupA r "id" == some id) = none) :
    db.deleteRecord c id now g =
      .error ("Record with ID " ++ id ++ " not found in collection " ++ c) := by
  unfold DB.deleteRecord
  dsimp only
  rw [h]

theorem deleteRecord_some (db : DB) (c id : String) (now : String) (g : Option String) (i : Nat)
    (h : (db.getCollection c).findIdx? (fun r => lookupA r "id" == some id) = some i) :
    db.deleteRecord c id now g =
      .ok ((db.saveCollection c ((db.getCollection c).eraseIdx i)
              now).commitChanges ("Delete record " ++ id ++ " from " ++ c) g,
           (db.getCollection c).getD i []) := by
  unfold DB.deleteRecord
  dsimp only
  rw [h]

theorem dispatchOp_ok_log (db : DB) (op : Op) (nowMs : Nat) (rand now : String)
    (g : Option String) (db2 : DB) (r : Obj)
    (h : dispatchOp db op nowMs rand now g = .ok (db2, r)) :
    ∃ t, db2.log = db.log ++ t := by
  cases op with
  | create c data =>
    simp only [dispatchOp, Except.ok.injEq] at h
    have hl := createRecord_log db c data nowMs rand now g
    rw [h] at hl
    exact hl
  | update c id data =>
    cases hidx : (db.getCollection c).findIdx? (fun r => lookupA r "id" == some id) with
    | none =>
      rw [dispatchOp, updateRecord_none db c id data now g hidx] at h
      exact absurd h (by simp)
    | some i =>
      rw [dispatchOp, updateRecord_some db c id data now g i hidx] at h
      simp only [Except.ok.injEq, Prod.mk.injEq] at h
      obtain ⟨hdb, hr⟩ := h
      obtain ⟨t, ht⟩ := commitChanges_log
        (db.saveCollection c
          ((db.getCollection c).set i
            (("id", id) :: ("updatedAt", now) :: data ++ (db.getCollection c).getD i []))
          now)
        ("Update record " ++ id ++ " in " ++ c) g
      exact ⟨t, by rw [hdb] at ht; simpa [saveCollection_log] using ht⟩
  | delete c id =>
    cases hidx : (db.getCollection c).findIdx? (fun r => lookupA r "id" == some id) with
    | none =>
      rw [dispatchOp, deleteRecord_none db c id now g hidx] at h
      exact absurd h (by simp)
    | some i =>
      rw [dispatchOp, deleteRecord_some db c id now g i hidx] at h
      simp only [Except.ok.injEq, Prod.mk.injEq] at h
      obtain ⟨hdb, hr⟩ := h
      obtain ⟨t, ht⟩ := commitChanges_log
        (db.saveCollection c ((db.getCollection c).eraseIdx i) now)
        ("Delete record " ++ id ++ " from " ++ c) g
      exact ⟨t, by rw [hdb] at ht; simpa [saveCollection_log] using ht⟩
  | other name =>
    exact absurd h (by simp [dispatchOp])

theorem applyStep_log (s : TS × DB) (m : Step) :
    ∃ t, (applyStep s m).2.log = s.2.log ++ t := by
  unfold applyStep TS.executeInTransaction
  cases hl : lookupA s.1.activeTransactions m.txId with
  | none => exact ⟨[], by simp⟩
  | some tx =>
    by_cases hs : tx.status = TxStatus.active
    · cases hd : dispatchOp s.2 m.op m.nowMs m.rand m.now m.gitFail with
      | ok p =>
        obtain ⟨db2, r⟩ := p
        obtain ⟨t, ht⟩ := dispatchOp_ok_log s.2 m.op m.nowMs m.rand m.now m.gitFail db2 r hd
        exact ⟨t, by simp [hs, hd, ht]⟩
      | error e => exact ⟨[], by simp [hs, hd]⟩
    · exact ⟨[], by simp [hs]⟩

theorem applyStep_lookup (s : TS × DB) (m : Step) (id0 : String) (st0 cp : Nat)
    (ops : List OpRecord)
    (h : lookupA s.1.activeTransactions id0 =
      some { id := id0, startTime := st0, checkpointHash := cp, operations := ops,
             status := .active, endTime := none, finalCommitHash := none }) :
    ∃ ops2, lookupA (applyStep s m).1.activeTransactions id0 =
      some { id := id0, startTime := st0, checkpointHash := cp, operations := ops2,
             status := .active, endTime := none, finalCommitHash := none } := by
  unfold applyStep TS.executeInTransaction
  by_cases he : m.txId = id0
  · rw [he, h]
    cases hd : dispatchOp s.2 m.op m.nowMs m.rand m.now m.gitFail with
    | ok p =>
      obtain ⟨db2, r⟩ := p
      refine ⟨ops ++ [{ operation := m.op, timestamp := m.opTime, status := "completed",
                        result := some r, error := none }], ?_⟩
      simp [hd, lookupA_alistSet_self]
    | error e =>
      refine ⟨ops ++ [{ operation := m.op, timestamp := m.opTime, status := "failed",
                        result := none, error := some e }], ?_⟩
      simp [hd, lookupA_alistSet_self]
  · have hne : id0 ≠ m.txId := fun hh => he (hh.symm)
    cases hl : lookupA s.1.activeTransactions m.txId with
    | none => exact ⟨ops, by simpa [hl] using h⟩
    | some tx =>
      by_cases hs : tx.status = TxStatus.active
      · cases hd : dispatchOp s.2 m.op m.nowMs m.rand m.now m.gitFail with
        | ok p =>
          obtain ⟨db2, r⟩ := p
          exact ⟨ops, by simp [hl, hs, hd, lookupA_alistSet_ne _ _ _ _ hne, h]⟩
        | error e =>
          exact ⟨ops, by simp [hl, hs, hd, lookupA_alistSet_ne _ _ _ _ hne, h]⟩
      · exact ⟨ops, by simpa [hl, hs] using h⟩

theorem applySteps_inv (id0 : String) (st0 cp : Nat) (baseLog : List (Store × String)) :
    ∀ (ms : List Step) (s : TS × DB),
      (∃ ops, lookupA s.1.activeTransactions id0 =
        some { id := id0, startTime := st0, checkpointHash := cp, operations := ops,
               status := .active, endTime := none, finalCommitHash := none }) →
      (∃ t, s.2.log = baseLog ++ t) →
      (∃ ops, lookupA (applySteps s ms).1.activeTransactions id0 =
          some { id := id0, startTime := st0, checkpointHash := cp, operations := ops,
                 status := .active, endTime := none, finalCommitHash := none }) ∧
        (∃ t, (applySteps s ms).2.log = baseLog ++ t) := by
  intro ms
  induction ms with
  | nil => intro s h1 h2; exact ⟨h1, h2⟩
  | cons m rest ih =>
    rintro s ⟨ops, h1⟩ ⟨t, h2⟩
    obtain ⟨ops2, h1b⟩ := applyStep_lookup s m id0 st0 cp ops h1
    obtain ⟨t2, h2b⟩ := applyStep_log s m
    have hfold : applySteps s (m :: rest) = applySteps (applyStep s m) rest := rfl
    rw [hfold]
    exact ih (applyStep s m) ⟨ops2, h1b⟩ ⟨t ++ t2, by rw [h2b, h2, List.append_assoc]⟩

theorem beginTransaction_ok_elim (ts : TS) (db : DB) (tid : Option String) (g : String)
    (t0 : Nat) (ts1 : TS) (tx : Txn)
    (h : ts.beginTransaction db tid g t0 = .ok (ts1, tx)) :
    tx = { id := jsOrElse tid g, startTime := t0, checkpointHash := db.log.length - 1,
           operations := [], status := .active, endTime := none, finalCommitHash := none } ∧
      db.log ≠ [] ∧
      ts1 = { activeTransactions := alistSet ts.activeTransactions (jsOrElse tid g) tx } ∧
      lookupA ts.activeTransactions (jsOrElse tid g) = none := by
  unfold TS.beginTransaction getCurrentCommitHash at h
  dsimp only at h
  by_cases hl : (lookupA ts.activeTransactions (jsOrElse tid g)).isSome
  · rw [if_pos hl] at h
    exact absurd h (by simp)
  · rw [if_neg hl] at h
    by_cases hlen : db.log.length = 0
    · simp [hlen] at h
    · simp only [hlen, if_false] at h
      simp only [Except.ok.injEq, Prod.mk.injEq] at h
      obtain ⟨hts, htx⟩ := h
      refine ⟨htx.symm, ?_, ?_, ?_⟩
      · intro hnil
        exact hlen (by simp [hnil])
      · rw [← hts, ← htx]
      · exact Option.not_isSome_iff_eq_none.mp hl

theorem revertToCommit_append (st : Store) (base ext : List (Store × String)) (hb : base ≠ []) :
    DB.revertToCommit { store := st, log := base ++ ext } (base.length - 1) none =
      .ok { store := (base.getLast hb).1, log := base } := by
  unfold DB.revertToCommit
  have hpos : 0 < base.length := List.length_pos.mpr hb
  have hlt : base.length - 1 < (base ++ ext).length := by
    rw [List.length_append]
    omega
  dsimp only
  rw [dif_pos hlt]
  have hsucc : base.length - 1 + 1 = base.length := Nat.succ_pred_eq_of_pos hpos
  have hget : ((base ++ ext).get ⟨base.length - 1, hlt⟩) = base.getLast hb := by
    simp only [List.get_eq_getElem]
    rw [List.getElem_append_left (by omega)]
    rw [List.getLast_eq_getElem]
  have htake : (base ++ ext).take (base.length - 1 + 1) = base := by
    rw [hsucc, List.take_left]
  rw [hget, htake]

theorem lookupA_cons_self {α : Type} (k : String) (v : α) (t : List (String × α)) :
    lookupA ((k, v) :: t) k = some v := by
  simp [lookupA]

theorem lookupA_cons_ne {α : Type} (k q : String) (v : α) (t : List (String × α))
    (h : ¬ k = q) : lookupA ((k, v) :: t) q = lookupA t q := by
  simp [lookupA, h]

theorem createRecord_snd_id (db : DB) (c : String) (data : Obj) (nowMs : Nat)
    (rand now : String) (g : Option String) :
    lookupA (db.createRecord c data nowMs rand now g).2 "id"
      = some (jsOrElse (lookupA data "id") (generateId nowMs rand)) := by
  rw [createRecord_snd, lookupA_cons_self]

theorem generateId_ne_empty (nowMs : Nat) (rand : String) : generateId nowMs rand ≠ "" := by
  unfold generateId
  intro h
  have h2 : (toString nowMs ++ "-" ++ rand).length
      = (toString nowMs).length + ("-" : String).length + rand.length := by
    rw [String.length_append, String.length_append]
  rw [h] at h2
  have h0 : ("" : String).length = 0 := rfl
  have h1 : ("-" : String).length = 1 := rfl
  omega

theorem jsOrElse_ne_empty (v : Option String) (d : String) (hd : d ≠ "") :
    jsOrElse v d ≠ "" := by
  unfold jsOrElse
  cases v with
  | none => exact hd
  | some s => by_cases hs : s = "" <;> simp [hs, hd]

/-- Claim C1: for a transaction begun at a clean checkpoint, any workload of
operations driven through the coordinator afterwards only ever appends
snapshots, so rolling the transaction back reverts the working store to
its state at the checkpoint for every collection and truncates the
snapshot log back to exactly the entries that existed at begin time,
discarding every snapshot captured since. -/
theorem rollback_restores_checkpoint (ts : TS) (db : DB) (tid : Option String) (g : String)
    (t0 endT : Nat) (ms : List Step) (ts1 : TS) (tx : Txn)
    (hclean : headStore db = some db.store)
    (hbegin : ts.beginTransaction db tid g t0 = .ok (ts1, tx)) :
    ∃ tsF txF dbF,
      TS.rollbackTransaction (applySteps (ts1, db) ms).1 (applySteps (ts1, db) ms).2
          tx.id endT none = (tsF, .ok (dbF, txF))
        ∧ dbF.store = db.store
        ∧ dbF.log = db.log
        ∧ ∀ c, dbF.getCollection c = db.getCollection c := by
  obtain ⟨htx, hne, hts1, hlook⟩ := beginTransaction_ok_elim ts db tid g t0 ts1 tx hbegin
  have hlen0 : 0 < db.log.length := List.length_pos.mpr hne
  have hid : tx.id = jsOrElse tid g := by rw [htx]
  have hinv0 : ∃ ops, lookupA ts1.activeTransactions tx.id =
      some { id := tx.id, startTime := t0, checkpointHash := db.log.length - 1,
             operations := ops, status := .active, endTime := none,
             finalCommitHash := none } := by
    refine ⟨[], ?_⟩
    rw [hts1, hid, lookupA_alistSet_self]
    rw [htx, ← hid]
  obtain ⟨⟨ops, hlk⟩, ⟨t, hlog⟩⟩ :=
    applySteps_inv tx.id t0 (db.log.length - 1) db.log ms (ts1, db) hinv0 ⟨[], by simp⟩
  have hglast : (db.log.getLast hne).1 = db.store := by
    unfold headStore at hclean
    rw [List.getLast?_eq_getLast db.log hne] at hclean
    simpa using hclean
  have heq : (applySteps (ts1, db) ms).2 =
      { store := (applySteps (ts1, db) ms).2.store, log := db.log ++ t } := by
    rw [← hlog]
  have hrev : DB.revertToCommit (applySteps (ts1, db) ms).2 (db.log.length - 1) none =
      .ok { store := db.store, log := db.log } := by
    rw [heq]
    rw [revertToCommit_append ((applySteps (ts1, db) ms).2.store) db.log t hne]
    rw [hglast]
  unfold TS.rollbackTransaction
  rw [hlk]
  dsimp only
  rw [if_neg (by simp)]
  rw [hrev]
  exact ⟨_, _, _, rfl, rfl, rfl, fun c => rfl⟩

/-- Claim C2, counterexample: createRecord performs no duplicate check, so a
create whose fields carry an explicit id that an existing record already
uses leaves the collection with two records sharing that id. -/
theorem create_allows_duplicate_ids :
    ¬ recordIdsUnique
      ((dbDup.createRecord "users" [("id", "a")] 0 "r" "t" none).1.getCollection "users") := by
  decide

/-- Claim C2, amended: when the resolved id of the new record is not already
used in the collection, uniqueness of ids is preserved by create; the
created record carries the resolved id, which is never empty; and an update
always stores and returns a record whose id equals the id it was addressed
with, so an update never changes a record id. -/
theorem id_invariants_amended (db : DB) (c : String) (data : Obj) (nowMs : Nat)
    (rand now : String) (g : Option String)
    (huniq : recordIdsUnique (db.getCollection c))
    (hfresh : ∀ r0 ∈ db.getCollection c,
      lookupA r0 "id" ≠ some (jsOrElse (lookupA data "id") (generateId nowMs rand))) :
    recordIdsUnique ((db.createRecord c data nowMs rand now g).1.getCollection c)
      ∧ lookupA (db.createRecord c data nowMs rand now g).2 "id"
          = some (jsOrElse (lookupA data "id") (generateId nowMs rand))
      ∧ jsOrElse (lookupA data "id") (generateId nowMs rand) ≠ ""
      ∧ ∀ (db0 : DB) (c0 id0 : String) (d0 : Obj) (n0 : String) (g0 : Option String)
          (db3 : DB) (r3 : Obj),
          db0.updateRecord c0 id0 d0 n0 g0 = .ok (db3, r3) →
          lookupA r3 "id" = some id0 := by
  refine ⟨?_, createRecord_snd_id db c data nowMs rand now g,
    jsOrElse_ne_empty _ _ (generateId_ne_empty nowMs rand), ?_⟩
  · rw [createRecord_getCollection]
    unfold recordIdsUnique at huniq ⊢
    rw [List.map_append]
    refine List.Nodup.append huniq (by simp) ?_
    intro a ha hb
    simp only [List.map_cons, List.map_nil, List.mem_cons, List.not_mem_nil, or_false] at hb
    rw [createRecord_snd_id] at hb
    obtain ⟨r0, hr0, hfr⟩ := List.mem_map.mp ha
    exact hfresh r0 hr0 (by rw [hfr, hb])
  · intro db0 c0 id0 d0 n0 g0 db3 r3 h
    cases hidx : (db0.getCollection c0).findIdx? (fun r => lookupA r "id" == some id0) with
    | none =>
      rw [updateRecord_none db0 c0 id0 d0 n0 g0 hidx] at h
      exact absurd h (by simp)
    | some i =>
      rw [updateRecord_some db0 c0 id0 d0 n0 g0 i hidx] at h
      simp only [Except.ok.injEq, Prod.mk.injEq] at h
      obtain ⟨_, hr⟩ := h
      rw [← hr]
      exact lookupA_cons_self _ _ _

/-- Claim C2, witness: creating a record with no caller id in an empty
collection preserves uniqueness of ids. -/
theorem id_invariants_amended_witness :
    recordIdsUnique
      ((dbEx.createRecord "users" [("name", "A")] 5 "r" "t1" none).1.getCollection "users") :=
  (id_invariants_amended dbEx "users" [("name", "A")] 5 "r" "t1" none (by decide) (by decide)).1

/-- Claim C3: commitChanges catches every git failure and never rethrows, so
a createRecord whose snapshot capture fails for an environmental reason
(not a nothing-to-commit) still completes, returns the new record, and
leaves the snapshot log unchanged while the working store has advanced:
the store and the snapshot log end up mismatched instead of the operation
failing with a storage error. -/
theorem capture_failure_swallowed :
    (dbEx.createRecord "users" [("name", "A")] 5 "r" "t1" (some "fatal: disk full")).1.log
        = dbEx.log
      ∧ (dbEx.createRecord "users" [("name", "A")] 5 "r" "t1" (some "fatal: disk full")).1.store
          ≠ dbEx.store
      ∧ (dbEx.createRecord "users" [("name", "A")] 5 "r" "t1" (some "fatal: disk full")).2
          = [("id", "5-r"), ("createdAt", "t1"), ("updatedAt", "t1"), ("name", "A")] := by
  refine ⟨by decide, by decide, by decide⟩

/-- Claim C4: on an active transaction, executeInTransaction always appends
exactly one operation record to the transaction log, carrying the
dispatched operation: completed with the result when the store call
succeeds, failed with the error detail when it fails for any reason
including an unrecognized operation kind, and in the failure case the very
error of the dispatch is re-raised to the caller, never swallowed. -/
theorem execute_appends_record_and_reraises (ts : TS) (db : DB) (txId : String) (op : Op)
    (nowMs : Nat) (rand now : String) (g : Option String) (opTime : Nat) (tx : Txn)
    (hfound : lookupA ts.activeTransactions txId = some tx)
    (hactive : tx.status = TxStatus.active) :
    ∃ entry : OpRecord,
      lookupA (ts.executeInTransaction db txId op nowMs rand now g opTime).1.activeTransactions
          txId = some { tx with operations := tx.operations ++ [entry] }
        ∧ entry.operation = op
        ∧ ((entry.status = "completed" ∧ entry.error = none ∧
              ∃ v, (ts.executeInTransaction db txId op nowMs rand now g opTime).2.2 = .ok v
                ∧ entry.result = some v)
          ∨ (entry.status = "failed" ∧ entry.result = none ∧
              ∃ e, dispatchOp db op nowMs rand now g = .error e
                ∧ (ts.executeInTransaction db txId op nowMs rand now g opTime).2.2 = .error e
                ∧ entry.error = some e)) := by
  unfold TS.executeInTransaction
  rw [hfound]
  dsimp only
  rw [if_neg (by simp [hactive])]
  cases hd : dispatchOp db op nowMs rand now g with
  | ok p =>
    obtain ⟨db2, r⟩ := p
    dsimp only
    refine ⟨{ operation := op, timestamp := opTime, status := "completed",
              result := some r, error := none }, ?_, rfl, ?_⟩
    · exact lookupA_alistSet_self _ _ _
    · exact Or.inl ⟨rfl, rfl, r, rfl, rfl⟩
  | error e =>
    dsimp only
    refine ⟨{ operation := op, timestamp := opTime, status := "failed",
              result := none, error := some e }, ?_, rfl, ?_⟩
    · exact lookupA_alistSet_self _ _ _
    · exact Or.inr ⟨rfl, rfl, e, rfl, rfl, rfl⟩

/-- Claim C4, witness: an unsupported operation kind on a concrete active
transaction still appends one operation record. -/
theorem execute_appends_record_and_reraises_witness :
    ∃ entry : OpRecord,
      lookupA ((TS.mk [("t1", Txn.mk "t1" 0 0 [] TxStatus.active none none)]).executeInTransaction
          dbEx "t1" (Op.other "merge") 5 "r" "t1" none 7).1.activeTransactions "t1"
        = some { Txn.mk "t1" 0 0 [] TxStatus.active none none with
                 operations := ([] : List OpRecord) ++ [entry] } :=
  match execute_appends_record_and_reraises (TS.mk [("t1", Txn.mk "t1" 0 0 [] .active none none)])
      dbEx "t1" (Op.other "merge") 5 "r" "t1" none 7
      (Txn.mk "t1" 0 0 [] .active none none) (by decide) rfl with
  | ⟨entry, h1, _, _⟩ => ⟨entry, h1⟩

/-- Claim C5: an update addressed at an id absent from the collection fails
with the not-found error and returns no new state, so the collection is
unchanged; otherwise the record at the found position is replaced by the
shallow merge of the supplied fields over the old record, in which each
supplied field fully replaces the prior value and every omitted field is
preserved, the id is preserved and updatedAt is refreshed, and the rest of
the collection is untouched. -/
theorem update_merge_spec (db : DB) (c id : String) (data : Obj) (now : String)
    (g : Option String) :
    (((db.getCollection c).findIdx? (fun r => lookupA r "id" == some id) = none →
        db.updateRecord c id data now g =
          .error ("Record with ID " ++ id ++ " not found in collection " ++ c))
      ∧ ∀ i, (db.getCollection c).findIdx? (fun r => lookupA r "id" == some id) = some i →
          ∃ db2 merged, db.updateRecord c id data now g = .ok (db2, merged)
            ∧ db2.getCollection c = (db.getCollection c).set i merged
            ∧ lookupA merged "id" = some id
            ∧ lookupA merged "updatedAt" = some now
            ∧ ∀ k, k ≠ "id" → k ≠ "updatedAt" →
                lookupA merged k =
                  optOr (lookupA data k) (lookupA ((db.getCollection c).getD i []) k)) := by
  constructor
  · intro h
    exact updateRecord_none db c id data now g h
  · intro i h
    refine ⟨_, _, updateRecord_some db c id data now g i h, ?_, ?_, ?_, ?_⟩
    · rw [getCollection_commitChanges, getCollection_saveCollection_self]
    · exact lookupA_cons_self _ _ _
    · have hne1 : ¬ ("id" : String) = "updatedAt" := by decide
      simp only [List.cons_append]
      rw [lookupA_cons_ne _ _ _ _ hne1]
      exact lookupA_cons_self _ _ _
    · intro k hk1 hk2
      have h1 : ¬ ("id" = k) := fun hh => hk1 hh.symm
      have h2 : ¬ ("updatedAt" = k) := fun hh => hk2 hh.symm
      simp only [List.cons_append]
      rw [lookupA_cons_ne _ _ _ _ h1, lookupA_cons_ne _ _ _ _ h2, lookupA_append]

/-- Claim C5, witness: updating the existing record of a concrete collection
succeeds and keeps its id. -/
theorem update_merge_spec_witness :
    ∃ db2 merged, dbDup.updateRecord "users" "a" [("x", "2")] "t2" none = .ok (db2, merged)
      ∧ lookupA merged "id" = some "a" :=
  match (update_merge_spec dbDup "users" "a" [("x", "2")] "t2" none).2 0 (by decide) with
  | ⟨db2, merged, h1, _, h3, _, _⟩ => ⟨db2, merged, h1, h3⟩

/-- Claim C6: create assigns a generated id exactly when the caller supplied
none, stamps createdAt and updatedAt with the same timestamp, appends the
new record at the end of the collection leaving the prior records and
their order unchanged, and returns the stored record. -/
theorem create_spec (db : DB) (c : String) (data : Obj) (nowMs : Nat) (rand now : String)
    (g : Option String) :
    (lookupA data "id" = none →
        lookupA (db.createRecord c data nowMs rand now g).2 "id"
          = some (generateId nowMs rand))
      ∧ lookupA (db.createRecord c data nowMs rand now g).2 "createdAt" = some now
      ∧ lookupA (db.createRecord c data nowMs rand now g).2 "updatedAt" = some now
      ∧ (db.createRecord c data nowMs rand now g).1.getCollection c
          = db.getCollection c ++ [(db.createRecord c data nowMs rand now g).2] := by
  refine ⟨?_, ?_, ?_, createRecord_getCollection db c data nowMs rand now g⟩
  · intro h
    rw [createRecord_snd_id, h]
    rfl
  · have h1 : ¬ ("id" : String) = "createdAt" := by decide
    rw [createRecord_snd, lookupA_cons_ne _ _ _ _ h1]
    exact lookupA_cons_self _ _ _
  · have h1 : ¬ ("id" : String) = "updatedAt" := by decide
    have h2 : ¬ ("createdAt" : String) = "updatedAt" := by decide
    rw [createRecord_snd, lookupA_cons_ne _ _ _ _ h1, lookupA_cons_ne _ _ _ _ h2]
    exact lookupA_cons_self _ _ _

/-- Claim C6, witness: creating from fields without an id in a concrete
store yields the generated id. -/
theorem create_spec_witness :
    lookupA (dbEx.createRecord "users" [("name", "A")] 5 "r" "t1" none).2 "id"
      = some (generateId 5 "r") :=
  (create_spec dbEx "users" [("name", "A")] 5 "r" "t1" none).1 (by decide)

/-- Claim C7, counterexample: getRecord returns the first record matching the
id while create appends at the end, so after creating a record whose
explicit id duplicates an existing one, get with the created id returns
the older record, not the created one. -/
theorem create_get_returns_older_duplicate :
    lookupA (dbDup.createRecord "users" [("id", "a"), ("x", "2")] 0 "r" "t" none).2 "id"
        = some "a"
      ∧ (dbDup.createRecord "users" [("id", "a"), ("x", "2")] 0 "r" "t" none).1.getRecord
          "users" "a"
        ≠ some (dbDup.createRecord "users" [("id", "a"), ("x", "2")] 0 "r" "t" none).2 := by
  exact ⟨by decide, by decide⟩

theorem find?_append_singleton {α : Type} (l : List α) (p : α → Bool) (a : α)
    (hl : ∀ x ∈ l, p x = false) (ha : p a = true) : (l ++ [a]).find? p = some a := by
  induction l with
  | nil => simp [List.find?, ha]
  | cons x t ih =>
    have hx : p x = false := hl x (by simp)
    have ht : ∀ y ∈ t, p y = false := fun y hy => hl y (by simp [hy])
    simp [List.find?, hx, ih ht]

/-- Claim C7, amended: when no existing record of the collection already
carries the id the created record resolves to, a create immediately
followed by get with the created record id returns exactly the record
create returned. -/
theorem create_get_roundtrip_fresh (db : DB) (c : String) (data : Obj) (nowMs : Nat)
    (rand now : String) (g : Option String)
    (hfresh : ∀ r0 ∈ db.getCollection c,
      lookupA r0 "id" ≠ some (jsOrElse (lookupA data "id") (generateId nowMs rand))) :
    (db.createRecord c data nowMs rand now g).1.getRecord c
        (jsOrElse (lookupA data "id") (generateId nowMs rand))
      = some (db.createRecord c data nowMs rand now g).2 := by
  unfold DB.getRecord
  rw [createRecord_getCollection]
  apply find?_append_singleton
  · intro r hr
    simp only [beq_eq_false_iff_ne]
    exact hfresh r hr
  · show (lookupA (db.createRecord c data nowMs rand now g).2 "id"
        == some (jsOrElse (lookupA data "id") (generateId nowMs rand))) = true
    rw [createRecord_snd_id]
    simp

/-- Claim C7, witness: the round trip at a fresh id on a concrete store. -/
theorem create_get_roundtrip_fresh_witness :
    (dbEx.createRecord "users" [("name", "A")] 5 "r" "t1" none).1.getRecord "users"
        (jsOrElse (lookupA ([("name", "A")] : Obj) "id") (generateId 5 "r"))
      = some (dbEx.createRecord "users" [("name", "A")] 5 "r" "t1" none).2 :=
  create_get_roundtrip_fresh dbEx "users" [("name", "A")] 5 "r" "t1" none (by decide)

/-- Claim C8: beginTransaction fails without registering anything when the
resolved id is already in the active set; otherwise, provided the log has a
head commit at all, it registers a transaction whose checkpoint equals the
current head of the snapshot log at that instant.  The function only ever
reads the DatabaseService state (git rev-parse), which the embedding makes
structural: beginTransaction neither takes ownership of nor returns a DB,
so the snapshot log is left unchanged and no snapshot is created. -/
theorem begin_checkpoint_spec (ts : TS) (db : DB) (tid : Option String) (g : String)
    (t0 : Nat) :
    ((lookupA ts.activeTransactions (jsOrElse tid g)).isSome →
        ts.beginTransaction db tid g t0 =
          .error ("Transaction " ++ jsOrElse tid g ++ " is already active"))
      ∧ (lookupA ts.activeTransactions (jsOrElse tid g) = none → db.log ≠ [] →
          ∃ tx, ts.beginTransaction db tid g t0 =
              .ok ({ activeTransactions := alistSet ts.activeTransactions (jsOrElse tid g) tx },
                   tx)
            ∧ tx.checkpointHash = db.log.length - 1
            ∧ getCurrentCommitHash db = .ok tx.checkpointHash
            ∧ tx.status = TxStatus.active
            ∧ lookupA (alistSet ts.activeTransactions (jsOrElse tid g) tx) (jsOrElse tid g)
                = some tx) := by
  constructor
  · intro h
    unfold TS.beginTransaction
    rw [if_pos h]
  · intro hnone hne
    have hlen : ¬ db.log.length = 0 := by
      have := List.length_pos.mpr hne
      omega
    refine ⟨{ id := jsOrElse tid g, startTime := t0, checkpointHash := db.log.length - 1,
              operations := [], status := .active, endTime := none, finalCommitHash := none },
            ?_, rfl, ?_, rfl, lookupA_alistSet_self _ _ _⟩
    · unfold TS.beginTransaction getCurrentCommitHash
      rw [if_neg (by simp [hnone])]
      rw [if_neg hlen]
    · unfold getCurrentCommitHash
      rw [if_neg hlen]

/-- Claim C8, witness: a begin on a concrete empty coordinator picks the head
commit of the one-entry log as its checkpoint. -/
theorem begin_checkpoint_spec_witness :
    ∃ tx : Txn, TS.beginTransaction (TS.mk []) dbEx (some "t1") "g" 0 =
        .ok ({ activeTransactions := alistSet [] (jsOrElse (some "t1") "g") tx }, tx)
      ∧ tx.checkpointHash = dbEx.log.length - 1 :=
  match (begin_checkpoint_spec (TS.mk []) dbEx (some "t1") "g" 0).2 (by decide) (by decide) with
  | ⟨tx, h1, h2, _⟩ => ⟨tx, h1, h2⟩

/-- Claim C1, witness: a concrete transaction on the one-commit example
store, one create step, then rollback, lands back on the initial store and
log. -/
theorem rollback_restores_checkpoint_witness :
    ∃ tsF txF dbF,
      TS.rollbackTransaction
          (applySteps (TS.mk [("t1", Txn.mk "t1" 0 0 [] TxStatus.active none none)], dbEx)
            [Step.mk "t1" (Op.create "users" [("name", "A")]) 5 "r" "t1" none 7]).1
          (applySteps (TS.mk [("t1", Txn.mk "t1" 0 0 [] TxStatus.active none none)], dbEx)
            [Step.mk "t1" (Op.create "users" [("name", "A")]) 5 "r" "t1" none 7]).2
          (Txn.mk "t1" 0 0 [] TxStatus.active none none).id 9 none
        = (tsF, .ok (dbF, txF))
      ∧ dbF.store = dbEx.store ∧ dbF.log = dbEx.log
      ∧ ∀ c, dbF.getCollection c = dbEx.getCollection c :=
  rollback_restores_checkpoint (TS.mk []) dbEx (some "t1") "g" 0 9
    [Step.mk "t1" (Op.create "users" [("name", "A")]) 5 "r" "t1" none 7]
    (TS.mk [("t1", Txn.mk "t1" 0 0 [] TxStatus.active none none)])
    (Txn.mk "t1" 0 0 [] TxStatus.active none none)
    (by decide) (by decide)

theorem rollbackTransaction_fst (ts : TS) (db : DB) (id : String) (endT : Nat)
    (g : Option String) :
    (ts.rollbackTransaction db id endT g).1 = ts
      ∨ (ts.rollbackTransaction db id endT g).1 =
          { activeTransactions := alistRemove ts.activeTransactions id } := by
  unfold TS.rollbackTransaction
  cases lookupA ts.activeTransactions id with
  | none => exact Or.inl rfl
  | some tx =>
    dsimp only
    by_cases hs : tx.status = TxStatus.active
    · rw [if_neg (by simp [hs])]
      cases db.revertToCommit tx.checkpointHash g with
      | error e => exact Or.inl rfl
      | ok db2 => exact Or.inr rfl
    · rw [if_pos hs]
      exact Or.inl rfl

theorem rollbackLoop_spec (okS errS : String) :
    ∀ (ids : List String) (ts : TS) (db : DB) (endT : Nat) (gf : String → Option String),
      ((rollbackLoop okS errS ts db ids endT gf).2.2.map (fun o => o.id) = ids)
        ∧ (∀ o ∈ (rollbackLoop okS errS ts db ids endT gf).2.2,
            (o.status = okS ∧ o.error = none) ∨ (o.status = errS ∧ o.error ≠ none))
        ∧ (∀ q, q ∉ ids →
            lookupA (rollbackLoop okS errS ts db ids endT gf).1.activeTransactions q
              = lookupA ts.activeTransactions q) := by
  intro ids
  induction ids with
  | nil =>
    intro ts db endT gf
    exact ⟨rfl, by simp [rollbackLoop], fun q h => rfl⟩
  | cons id rest ih =>
    intro ts db endT gf
    have hfst := rollbackTransaction_fst ts db id endT (gf id)
    unfold rollbackLoop
    cases hr : ts.rollbackTransaction db id endT (gf id) with
    | mk ts2 res =>
      rw [hr] at hfst
      dsimp only at hfst
      cases res with
      | ok p =>
        obtain ⟨db2, tx2⟩ := p
        dsimp only
        obtain ⟨ih1, ih2, ih3⟩ := ih ts2 db2 endT gf
        refine ⟨by simpa using ih1, ?_, ?_⟩
        · intro o ho
          simp only [List.mem_cons] at ho
          cases ho with
          | inl h => exact Or.inl ⟨by rw [h], by rw [h]⟩
          | inr h => exact ih2 o h
        · intro q hq
          simp only [List.mem_cons, not_or] at hq
          obtain ⟨hq1, hq2⟩ := hq
          rw [ih3 q hq2]
          cases hfst with
          | inl h => rw [h]
          | inr h => rw [h]; exact lookupA_alistRemove_ne _ _ _ hq1
      | error e =>
        dsimp only
        obtain ⟨ih1, ih2, ih3⟩ := ih ts2 db endT gf
        refine ⟨by simpa using ih1, ?_, ?_⟩
        · intro o ho
          simp only [List.mem_cons] at ho
          cases ho with
          | inl h => exact Or.inr ⟨by rw [h], by rw [h]; simp⟩
          | inr h => exact ih2 o h
        · intro q hq
          simp only [List.mem_cons, not_or] at hq
          obtain ⟨hq1, hq2⟩ := hq
          rw [ih3 q hq2]
          cases hfst with
          | inl h => rw [h]
          | inr h => rw [h]; exact lookupA_alistRemove_ne _ _ _ hq1

/-- Claim C9: cleanupStaleTransactions attempts a rollback for exactly the
active transactions whose age exceeds the threshold, in registration
order, and abortAllTransactions for every active transaction; both are
total functions returning one outcome per attempted transaction, each
outcome being either the success status with no error or the error status
carrying the message, so one failing transaction never prevents the rest
from being attempted; and cleanup leaves every transaction it did not
select untouched in the active set. -/
theorem cleanup_abort_outcomes (ts : TS) (db : DB) (nowT maxAge endT : Nat)
    (gf : String → Option String) :
    ((ts.cleanupStaleTransactions db nowT maxAge endT gf).2.2.map (fun o => o.id)
        = (ts.activeTransactions.filter (fun p => isStale nowT maxAge p.2)).map Prod.fst)
      ∧ (∀ o ∈ (ts.cleanupStaleTransactions db nowT maxAge endT gf).2.2,
          (o.status = "auto_rolled_back" ∧ o.error = none)
            ∨ (o.status = "cleanup_error" ∧ o.error ≠ none))
      ∧ (∀ q, q ∉ (ts.activeTransactions.filter
            (fun p => isStale nowT maxAge p.2)).map Prod.fst →
          lookupA (ts.cleanupStaleTransactions db nowT maxAge endT gf).1.activeTransactions q
            = lookupA ts.activeTransactions q)
      ∧ ((ts.abortAllTransactions db endT gf).2.2.map (fun o => o.id)
          = ts.activeTransactions.map Prod.fst)
      ∧ (∀ o ∈ (ts.abortAllTransactions db endT gf).2.2,
          (o.status = "rolled_back" ∧ o.error = none)
            ∨ (o.status = "error" ∧ o.error ≠ none)) := by
  obtain ⟨h1, h2, h3⟩ := rollbackLoop_spec "auto_rolled_back" "cleanup_error"
    ((ts.activeTransactions.filter (fun p => isStale nowT maxAge p.2)).map Prod.fst)
    ts db endT gf
  obtain ⟨h4, h5, _⟩ := rollbackLoop_spec "rolled_back" "error"
    (ts.activeTransactions.map Prod.fst) ts db endT gf
  exact ⟨h1, h2, h3, h4, h5⟩

/-- Claim C9, witness: on a coordinator with one stale and one fresh
transaction, cleanup attempts exactly the stale one and abort-all attempts
both. -/
theorem cleanup_abort_outcomes_witness :
    ((TS.mk [("t1", Txn.mk "t1" 0 0 [] TxStatus.active none none),
             ("t2", Txn.mk "t2" 199000000 0 [] TxStatus.active none none)]).cleanupStaleTransactions
        dbEx 200000000 30 5 (fun _ => none)).2.2.map (fun o => o.id) = ["t1"]
      ∧ ((TS.mk [("t1", Txn.mk "t1" 0 0 [] TxStatus.active none none),
             ("t2", Txn.mk "t2" 199000000 0 [] TxStatus.active none none)]).abortAllTransactions
          dbEx 5 (fun _ => none)).2.2.map (fun o => o.id) = ["t1", "t2"] := by
  have h := cleanup_abort_outcomes
    (TS.mk [("t1", Txn.mk "t1" 0 0 [] TxStatus.active none none),
            ("t2", Txn.mk "t2" 199000000 0 [] TxStatus.active none none)])
    dbEx 200000000 30 5 (fun _ => none)
  refine ⟨?_, ?_⟩
  · rw [h.1]
    decide
  · rw [h.2.2.2.1]
    decide

/-- Claim C10: update shields only id and updatedAt from caller-supplied
values, so an update whose fields include createdAt stores the caller
value for createdAt; create, instead, overrides both createdAt and
updatedAt with the store clock, whatever the caller supplied. -/
theorem timestamp_shielding :
    (∀ (db : DB) (c id : String) (data : Obj) (now : String) (g : Option String) (v : String)
        (db2 : DB) (r2 : Obj),
        lookupA data "createdAt" = some v →
        db.updateRecord c id data now g = .ok (db2, r2) →
        lookupA r2 "createdAt" = some v)
      ∧ (∀ (db : DB) (c : String) (data : Obj) (nowMs : Nat) (rand now : String)
          (g : Option String),
          lookupA (db.createRecord c data nowMs rand now g).2 "createdAt" = some now
            ∧ lookupA (db.createRecord c data nowMs rand now g).2 "updatedAt" = some now) := by
  constructor
  · intro db c id data now g v db2 r2 hv h
    cases hidx : (db.getCollection c).findIdx? (fun r => lookupA r "id" == some id) with
    | none =>
      rw [updateRecord_none db c id data now g hidx] at h
      exact absurd h (by simp)
    | some i =>
      rw [updateRecord_some db c id data now g i hidx] at h
      simp only [Except.ok.injEq, Prod.mk.injEq] at h
      obtain ⟨_, hr⟩ := h
      rw [← hr]
      have h1 : ¬ ("id" : String) = "createdAt" := by decide
      have h2 : ¬ ("updatedAt" : String) = "createdAt" := by decide
      simp only [List.cons_append]
      rw [lookupA_cons_ne _ _ _ _ h1, lookupA_cons_ne _ _ _ _ h2, lookupA_append, hv]
      rfl
  · intro db c data nowMs rand now g
    constructor
    · have h1 : ¬ ("id" : String) = "createdAt" := by decide
      rw [createRecord_snd, lookupA_cons_ne _ _ _ _ h1]
      exact lookupA_cons_self _ _ _
    · have h1 : ¬ ("id" : String) = "updatedAt" := by decide
      have h2 : ¬ ("createdAt" : String) = "updatedAt" := by decide
      rw [createRecord_snd, lookupA_cons_ne _ _ _ _ h1, lookupA_cons_ne _ _ _ _ h2]
      exact lookupA_cons_self _ _ _

/-- Claim C10, witness: updating the concrete record with a caller-supplied
createdAt stores exactly the caller value. -/
theorem timestamp_shielding_witness :
    ∃ db2 r2, dbDup.updateRecord "users" "a" [("createdAt", "t9")] "t2" none = .ok (db2, r2)
      ∧ lookupA r2 "createdAt" = some "t9" :=
  ⟨dbDupUpd, rowDupUpd, by decide,
   timestamp_shielding.1 dbDup "users" "a" [("createdAt", "t9")] "t2" none "t9" dbDupUpd
     rowDupUpd (by decide) (by decide)⟩

end GB
